import Mathlib

/-!
Verification of the hierarchical classifier engine
(sklearn_hierarchical_classification/classifier.py).

Shallow embedding conventions:
- Node identifiers and class labels are natural numbers.
- The class hierarchy graph is given by its successor function; the
  out-degree of a node is the length of its successor list.
- Probability scores are rationals; a csr feature matrix is a list of
  rows with integer entries (the claims only depend on which rows are
  nonzero and on row-wise addition, so exact machine-float values are
  immaterial); the code builds per-node caches of the same shape as the
  training matrix, whose non-relevant rows are all zeros.
- Local classifiers are external collaborators: an abstract example type,
  a classes_ enumeration and a predict_proba function over it.  The base
  estimator is an abstract fitting function; the sklearn contract that a
  fitted classifier enumerates the sorted distinct training targets in
  classes_ is part of the model.
- The configuration strings (algorithm, feature_extraction,
  prediction_depth) are kept as strings, as in the source.
- Imperative graph-attribute mutation is modelled by explicit state
  threading; a function that only reads the state returns it unchanged.
-/

/-- Function-map update, modelling assignment to a keyed attribute store. -/
def fset {β : Type} (f : ℕ → β) (n : ℕ) (v : β) : ℕ → β :=
  fun m => if m = n then v else f m

/-- Row of the feature matrix (integer entries, see header note). -/
abbrev Vec : Type := List ℤ

/-- Dense stand-in for the csr feature matrix: a list of rows. -/
abbrev Mat : Type := List Vec

/-- Probability vector over the flattened class list. -/
abbrev PVec : Type := List ℚ

/-- Zero matrix of the same shape as X, modelling csr_matrix(X.shape). -/
def zeroM (X : Mat) : Mat := X.map (fun row => row.map (fun _ => 0))

/-- Elementwise matrix addition, modelling + on same-shape csr matrices. -/
def matAdd (A B : Mat) : Mat := List.zipWith (fun r s => List.zipWith (· + ·) r s) A B

/-- Elementwise vector addition, modelling += on probability vectors. -/
def vecAdd (a b : PVec) : PVec := List.zipWith (· + ·) a b

/-- Test for a row with at least one nonzero entry. -/
def rowNnzQ (r : Vec) : Bool := r.any (fun q => decide (q ≠ 0))

/-- Modelled from the spec: nnz_rows_ix (array.py, not under src/) returns the
indices of the non-empty rows of a feature matrix, in increasing order
(spec 4.3 step 3: the non-empty rows of the node's cached feature matrix). -/
def nnz_rows_ix {α : Type} (rowNnz : α → Bool) (M : List α) : List ℕ :=
  M.enum.filterMap (fun p => if rowNnz p.2 then some p.1 else none)

/-- Modelled from the spec: extract_rows_csr (array.py, not under src/) keeps
the rows at the given indices and zeroes out all other rows, preserving the
matrix shape (spec 4.2: the subset of training rows whose label equals the
leaf identifier, stored as a same-shape matrix whose other rows are empty). -/
def extract_rows_csr (M : Mat) (ix : List ℕ) : Mat :=
  M.enum.map (fun p => if ix.contains p.1 then p.2 else p.2.map (fun _ => 0))

/-- Indices i with y[i] = v, modelling np.flatnonzero(y == v). -/
def labelIndices (y : List ℕ) (v : ℕ) : List ℕ :=
  (List.range y.length).filter (fun i => decide (y.get? i = some v))

/-- Row selection X[ix, :], producing a smaller matrix of the chosen rows. -/
def selectRows {α : Type} (M : List α) (ix : List ℕ) : List α :=
  ix.filterMap (fun i => M.get? i)

/-- Sorted distinct values of a list, modelling np.unique. -/
def npUnique (l : List ℕ) : List ℕ := (l.insertionSort (· ≤ ·)).dedup

/-- Metafeatures record stored per node: n_samples and n_targets. -/
structure Meta where
  nSamples : ℕ
  nTargets : ℕ
deriving DecidableEq

/-- Metafeatures of a node cache, per build_metafeatures in preprocessed
mode: count of non-empty cache rows and of distinct labels on those rows. -/
def buildMetafeatures (M : Mat) (y : List ℕ) : Meta :=
  { nSamples := (nnz_rows_ix rowNnzQ M).length
    nTargets := (npUnique ((nnz_rows_ix rowNnzQ M).filterMap (fun i => y.get? i))).length }

/-- State of the feature-building pass: the per-node X cache attribute and
the per-node metafeatures attribute of the hierarchy graph. -/
structure BSt where
  cache : ℕ → Option Mat
  meta : ℕ → Option Meta

/-- Embedding of recursive_build_features (classifier.py lines 336-401),
preprocessed mode (the only mode in which fit invokes it, line 251-254).
State is threaded; fuel bounds the recursion depth (the source recurses on a
finite rooted DAG).  A leaf stores the extracted rows for its own label; an
internal node stores a same-shape zero matrix and adds each child's returned
matrix into its stored cache, then stores metafeatures; if the node identifier
is dtype-compatible with the label array, the rows labelled with the node
itself are added to the value returned to the caller (X_out, line 396-401)
while the stored cache is left as the children's sum. -/
def recursive_build_features (succ : ℕ → List ℕ) (dtypeOk : ℕ → Bool)
    (X : Mat) (y : List ℕ) : ℕ → BSt → ℕ → BSt × Mat
  | 0, st, _ => (st, zeroM X)
  | fuel+1, st, n =>
    match st.cache n with
    | some c => (st, c)
    | none =>
      if (succ n).length = 0 then
        let c := extract_rows_csr X (labelIndices y n)
        ({ st with cache := fset st.cache n (some c) }, c)
      else
        let st1 : BSt := { st with cache := fset st.cache n (some (zeroM X)) }
        let st2 : BSt := (succ n).foldl
          (fun s child =>
            let pr := recursive_build_features succ dtypeOk X y fuel s child
            { pr.1 with
              cache := fset pr.1.cache n
                (some (matAdd ((pr.1.cache n).getD (zeroM X)) pr.2)) })
          st1
        let stM : BSt := { st2 with
          meta := fset st2.meta n (some (buildMetafeatures ((st2.cache n).getD (zeroM X)) y)) }
        if dtypeOk n then
          (stM, matAdd ((stM.cache n).getD (zeroM X)) (extract_rows_csr X (labelIndices y n)))
        else
          (stM, (stM.cache n).getD (zeroM X))

/-- Named form of the loop body that accumulates one child's features into
the parent cache (the += over successors, lines 373-380). -/
def buildChildStep (succ : ℕ → List ℕ) (dtypeOk : ℕ → Bool) (X : Mat) (y : List ℕ)
    (fuel : ℕ) (n : ℕ) (s : BSt) (child : ℕ) : BSt :=
  let pr := recursive_build_features succ dtypeOk X y fuel s child
  { pr.1 with
    cache := fset pr.1.cache n (some (matAdd ((pr.1.cache n).getD (zeroM X)) pr.2)) }

lemma build_succ_eq (succ : ℕ → List ℕ) (dtypeOk : ℕ → Bool) (X : Mat) (y : List ℕ)
    (fuel : ℕ) (st : BSt) (n : ℕ) :
    recursive_build_features succ dtypeOk X y (fuel+1) st n =
      match st.cache n with
      | some c => (st, c)
      | none =>
        if (succ n).length = 0 then
          let c := extract_rows_csr X (labelIndices y n)
          ({ st with cache := fset st.cache n (some c) }, c)
        else
          let st1 : BSt := { st with cache := fset st.cache n (some (zeroM X)) }
          let st2 : BSt := (succ n).foldl (buildChildStep succ dtypeOk X y fuel n) st1
          let stM : BSt := { st2 with
            meta := fset st2.meta n
              (some (buildMetafeatures ((st2.cache n).getD (zeroM X)) y)) }
          if dtypeOk n then
            (stM, matAdd ((stM.cache n).getD (zeroM X))
              (extract_rows_csr X (labelIndices y n)))
          else
            (stM, (stM.cache n).getD (zeroM X)) := rfl

lemma build_cache_mono (succ : ℕ → List ℕ) (dtypeOk : ℕ → Bool) (X : Mat) (y : List ℕ) :
    ∀ (fuel : ℕ) (st : BSt) (n m : ℕ) (c : Mat), st.cache m = some c →
      ((recursive_build_features succ dtypeOk X y fuel st n).1).cache m = some c := by
  intro fuel
  induction fuel with
  | zero => intro st n m c h; exact h
  | succ f ih =>
    intro st n m c h
    rw [build_succ_eq]
    cases hc : st.cache n with
    | some v => simpa using h
    | none =>
      have hmn : m ≠ n := by
        intro e; rw [e, hc] at h; exact Option.noConfusion h
      have hfold : ∀ (l : List ℕ) (s : BSt), s.cache m = some c →
          ((l.foldl (buildChildStep succ dtypeOk X y f n) s)).cache m = some c := by
        intro l
        induction l with
        | nil => intro s hs; exact hs
        | cons a t iht =>
          intro s hs
          rw [List.foldl_cons]
          apply iht
          show (buildChildStep succ dtypeOk X y f n s a).cache m = some c
          unfold buildChildStep
          simp only [fset, if_neg hmn]
          exact ih s a m c hs
      by_cases hleaf : (succ n).length = 0
      · simp only [hleaf, if_true]
        simpa [fset, hmn] using h
      · simp only [hleaf, if_false]
        by_cases hdt : dtypeOk n
        · simp only [hdt, if_true]
          apply hfold
          simpa [fset, hmn] using h
        · simp only [hdt, if_false]
          apply hfold
          simpa [fset, hmn] using h

lemma build_fold_cache_isSome (succ : ℕ → List ℕ) (dtypeOk : ℕ → Bool) (X : Mat)
    (y : List ℕ) (f n : ℕ) :
    ∀ (l : List ℕ) (s : BSt), (s.cache n).isSome →
      (((l.foldl (buildChildStep succ dtypeOk X y f n) s)).cache n).isSome := by
  intro l
  induction l with
  | nil => intro s hs; exact hs
  | cons a t iht =>
    intro s hs
    rw [List.foldl_cons]
    apply iht
    show ((buildChildStep succ dtypeOk X y f n s a).cache n).isSome
    unfold buildChildStep
    simp [fset]

lemma mem_npUnique {a : ℕ} {l : List ℕ} : a ∈ npUnique l ↔ a ∈ l := by
  unfold npUnique
  rw [List.mem_dedup]
  exact (List.perm_insertionSort (· ≤ ·) l).mem_iff

lemma npUnique_length_one {l : List ℕ} (h : (npUnique l).length = 1) :
    npUnique l = [l.headD 0] := by
  obtain ⟨a, ha⟩ := List.length_eq_one.mp h
  have hne : l ≠ [] := by
    intro e; rw [e] at ha; simp [npUnique, List.dedup] at ha
  obtain ⟨b, t, rfl⟩ := List.exists_cons_of_ne_nil hne
  have hb : b ∈ npUnique (b :: t) := mem_npUnique.mpr (List.mem_cons_self b t)
  rw [ha] at hb ⊢
  simp_all

/-- C2 counterexample: hierarchy 0 to 1 to 2 with training rows labelled 1
(the intermediate node) and 2 (the leaf).  After building features, the
stored cache of the internal node 1 is not the union of its children's
caches with the rows labelled 1 appended: the code appends those rows only
to the value it returns to the parent (X_out, lines 395-401), never to the
stored cache attribute. -/
theorem build_features_intermediate_rows_not_in_cache :
    ¬ ((recursive_build_features
          (fun n => if n = 0 then [1] else if n = 1 then [2] else [])
          (fun _ => true) [[1,0],[0,1]] [1,2] 10 ⟨fun _ => none, fun _ => none⟩ 0).1.cache 1 =
        some (matAdd
          (((recursive_build_features
              (fun n => if n = 0 then [1] else if n = 1 then [2] else [])
              (fun _ => true) [[1,0],[0,1]] [1,2] 10 ⟨fun _ => none, fun _ => none⟩ 0).1.cache 2).getD
            (zeroM [[1,0],[0,1]]))
          (extract_rows_csr [[1,0],[0,1]] (labelIndices [1,2] 1)))) := by
  decide

/-- Feature sets returned by the children of node n during the accumulation
loop over its successors, in traversal order, threading exactly the same
intermediate states as the loop itself (each child runs in the state left by
the previous accumulation step, including the parent's partial cache). -/
def childReturns (succ : ℕ → List ℕ) (dtypeOk : ℕ → Bool) (X : Mat) (y : List ℕ)
    (fuel : ℕ) (n : ℕ) : BSt → List ℕ → List Mat
  | _, [] => []
  | s, c :: cs =>
    (recursive_build_features succ dtypeOk X y fuel s c).2 ::
      childReturns succ dtypeOk X y fuel n
        (buildChildStep succ dtypeOk X y fuel n s c) cs

lemma buildChildren_cache_sum (succ : ℕ → List ℕ) (dtypeOk : ℕ → Bool) (X : Mat)
    (y : List ℕ) (fuel : ℕ) (n : ℕ) :
    ∀ (l : List ℕ) (s : BSt) (acc : Mat), s.cache n = some acc →
      ((l.foldl (buildChildStep succ dtypeOk X y fuel n) s)).cache n =
        some ((childReturns succ dtypeOk X y fuel n s l).foldl matAdd acc) := by
  intro l
  induction l with
  | nil => intro s acc h; simpa [childReturns] using h
  | cons c cs ih =>
    intro s acc h
    have hmono := build_cache_mono succ dtypeOk X y fuel s c n acc h
    have hstep : (buildChildStep succ dtypeOk X y fuel n s c).cache n =
        some (matAdd acc (recursive_build_features succ dtypeOk X y fuel s c).2) := by
      simp [buildChildStep, fset, hmono]
    rw [List.foldl_cons,
      show childReturns succ dtypeOk X y fuel n s (c :: cs) =
        (recursive_build_features succ dtypeOk X y fuel s c).2 ::
          childReturns succ dtypeOk X y fuel n
            (buildChildStep succ dtypeOk X y fuel n s c) cs from rfl,
      List.foldl_cons]
    exact ih _ _ hstep

/-- C2 (amended): at an internal, not-yet-cached node whose identifier is
dtype-compatible with the label array, the build pass stores as the node's
cache exactly the row-wise sum, from the same-shape zero matrix, of the
feature sets its children return during the accumulation loop, and returns
that stored cache with the rows labelled by the node itself added on top;
the rows labelled with the intermediate node are thus propagated upward to
the parent but are not part of the node's stored cache. -/
theorem build_features_internal_node_propagates_own_rows (succ : ℕ → List ℕ)
    (dtypeOk : ℕ → Bool) (X : Mat) (y : List ℕ) (f : ℕ) (st : BSt) (n : ℕ)
    (hint : (succ n).length ≠ 0) (hm : st.cache n = none) (hdt : dtypeOk n = true) :
    ∃ stored,
      ((recursive_build_features succ dtypeOk X y (f+1) st n).1).cache n = some stored ∧
      stored = (childReturns succ dtypeOk X y f n
          { st with cache := fset st.cache n (some (zeroM X)) } (succ n)).foldl
        matAdd (zeroM X) ∧
      (recursive_build_features succ dtypeOk X y (f+1) st n).2 =
        matAdd stored (extract_rows_csr X (labelIndices y n)) := by
  rw [build_succ_eq, hm]
  simp only [if_neg hint, hdt, if_true]
  have hsum := buildChildren_cache_sum succ dtypeOk X y f n (succ n)
    { st with cache := fset st.cache n (some (zeroM X)) } (zeroM X) (by simp [fset])
  exact ⟨_, hsum, rfl, by rw [hsum]; rfl⟩

/-- C2 amended witness: the amended statement instantiated on the concrete
two-edge hierarchy of the counterexample. -/
theorem build_features_internal_node_propagates_own_rows_witness :
    ∃ stored,
      ((recursive_build_features (fun n => if n = 0 then [1] else if n = 1 then [2] else [])
          (fun _ => true) [[1,0],[0,1]] [1,2] 10 ⟨fun _ => none, fun _ => none⟩ 1).1).cache 1 =
        some stored ∧
      stored = (childReturns (fun n => if n = 0 then [1] else if n = 1 then [2] else [])
          (fun _ => true) [[1,0],[0,1]] [1,2] 9 1
          ⟨fset (fun _ => none) 1 (some (zeroM [[1,0],[0,1]])), fun _ => none⟩ [2]).foldl
        matAdd (zeroM [[1,0],[0,1]]) ∧
      (recursive_build_features (fun n => if n = 0 then [1] else if n = 1 then [2] else [])
          (fun _ => true) [[1,0],[0,1]] [1,2] 10 ⟨fun _ => none, fun _ => none⟩ 1).2 =
        matAdd stored (extract_rows_csr [[1,0],[0,1]] (labelIndices [1,2] 1)) :=
  build_features_internal_node_propagates_own_rows
    (fun n => if n = 0 then [1] else if n = 1 then [2] else [])
    (fun _ => true) [[1,0],[0,1]] [1,2] 9 ⟨fun _ => none, fun _ => none⟩ 1
    (by decide) rfl rfl

/-- C7: the feature cache is memoized: a call on a node that already holds a
cache returns the stored matrix immediately with the state untouched, and any
cache entry present before a build call is still present, unchanged, after
it, so DAG multi-parent fan-in never recomputes or rewrites a finished
node cache. -/
theorem build_features_cache_computed_once :
    (∀ (succ : ℕ → List ℕ) (dtypeOk : ℕ → Bool) (X : Mat) (y : List ℕ)
        (fuel : ℕ) (st : BSt) (n : ℕ) (c : Mat), st.cache n = some c →
      recursive_build_features succ dtypeOk X y (fuel+1) st n = (st, c)) ∧
    (∀ (succ : ℕ → List ℕ) (dtypeOk : ℕ → Bool) (X : Mat) (y : List ℕ)
        (fuel : ℕ) (st : BSt) (n m : ℕ) (c : Mat), st.cache m = some c →
      ((recursive_build_features succ dtypeOk X y fuel st n).1).cache m = some c) := by
  constructor
  · intro succ dtypeOk X y fuel st n c h
    rw [build_succ_eq, h]
  · intro succ dtypeOk X y fuel st n m c h
    exact build_cache_mono succ dtypeOk X y fuel st n m c h

/-- C7 witness: a state already caching node 3 is returned unchanged by a
revisit of node 3, and the cached entry survives a build call rooted
elsewhere. -/
theorem build_features_cache_computed_once_witness :
    recursive_build_features (fun _ => [])
        (fun _ => true) [[1]] [0] 1 ⟨fun m => if m = 3 then some [[2]] else none, fun _ => none⟩ 3 =
      (⟨fun m => if m = 3 then some [[2]] else none, fun _ => none⟩, [[2]]) ∧
    ((recursive_build_features (fun _ => [])
        (fun _ => true) [[1]] [0] 5 ⟨fun m => if m = 3 then some [[2]] else none, fun _ => none⟩ 0).1).cache 3 =
      some [[2]] :=
  ⟨build_features_cache_computed_once.1 (fun _ => []) (fun _ => true) [[1]] [0] 0
      ⟨fun m => if m = 3 then some [[2]] else none, fun _ => none⟩ 3 [[2]] rfl,
    build_features_cache_computed_once.2 (fun _ => []) (fun _ => true) [[1]] [0] 5
      ⟨fun m => if m = 3 then some [[2]] else none, fun _ => none⟩ 0 3 [[2]] rfl⟩

/-- Shape of a local classifier object: the base estimator resolved for a
node, or the DummyClassifier constant-prediction fallback (line 552). -/
inductive ClfKind where
  | base (n : ℕ)
  | dummyConst (c : ℕ)
deriving DecidableEq

/-- External local-classifier collaborator: its kind, whether fit has been
called on it, its classes_ enumeration, and its predict_proba function over
an abstract example type.  Probabilities over classes_ are returned as one
row (the source takes predict_proba(x)[0]). -/
structure Clf (α : Type) where
  kind : ClfKind
  isFitted : Bool
  cls : List ℕ
  proba : α → List ℚ

/-- Freshly cloned, unfitted base estimator for a node: no classes_ yet. -/
def unfittedBase (α : Type) (n : ℕ) : Clf α :=
  { kind := .base n, isFitted := false, cls := [], proba := fun _ => [] }

/-- Unfitted DummyClassifier(strategy=constant, constant=k). -/
def unfittedDummy (α : Type) (k : ℕ) : Clf α :=
  { kind := .dummyConst k, isFitted := false, cls := [], proba := fun _ => [] }

/-- Fitting a classifier object on (Xtr, ytr).  The sklearn contract is that
classes_ becomes the sorted distinct training targets; the learned
probability function of a base estimator is abstract (an external
collaborator, supplied as be); the constant DummyClassifier puts all its
probability mass on its constant. -/
def fitClf {α : Type} (be : ℕ → List α → List ℕ → α → List ℚ) (c : Clf α)
    (Xtr : List α) (ytr : List ℕ) : Clf α :=
  match c.kind with
  | .base n => { kind := .base n, isFitted := true, cls := npUnique ytr, proba := be n Xtr ytr }
  | .dummyConst k =>
    { kind := .dummyConst k, isFitted := true, cls := npUnique ytr,
      proba := fun _ => (npUnique ytr).map (fun v => if v = k then (1:ℚ) else 0) }

/-- Modelled from the spec: reachability in the class hierarchy, used by the
rollup resolver (graph.py rollup_nodes is not under src/): a node reaches
itself and everything reachable through its successors, to bounded depth. -/
def nodeReaches (succ : ℕ → List ℕ) : ℕ → ℕ → ℕ → Bool
  | 0, a, b => a == b
  | f+1, a, b => a == b || (succ a).any (fun c => nodeReaches succ f c b)

/-- Modelled from the spec: rollup_nodes (graph.py, not under src/) for a
tree hierarchy, spec 4.4: every row's rolled-up label is the immediate child
subtree of the source node that the row's true label descends from; the
resolver emits, per row, the list of qualifying children. -/
def rollup_nodes (fuel : ℕ) (succ : ℕ → List ℕ) (source : ℕ)
    (targets : List ℕ) : List (List ℕ) :=
  targets.map (fun t => (succ source).filter (fun c => nodeReaches succ fuel c t))

/-- Modelled from the spec: flatten_list (array.py, not under src/) flattens
a list of per-row label lists into one label array. -/
def flatten_list (l : List (List ℕ)) : List ℕ := l.flatten

/-- Fixed configuration and training inputs for the classifier-training
pass.  The embedding covers the configurations the verified claims exercise:
a tree hierarchy and single-label targets (is_tree_ true, mlb None), with
both feature-extraction modes.  For the preprocessed mode the per-node
feature caches built by recursive_build_features are supplied in cache, and
rowNnz decides whether a cached row is non-empty. -/
structure TrainCtx (α : Type) where
  succ : ℕ → List ℕ
  algorithm : String
  featureExtraction : String
  X : List α
  y : List ℕ
  cache : ℕ → Option (List α)
  rowNnz : α → Bool
  be : ℕ → List α → List ℕ → α → List ℚ
  reachFuel : ℕ

/-- Mutable training state: the CLASSIFIER node attribute of the graph and
the flat estimators_ mapping. -/
structure TSt (α : Type) where
  clf : ℕ → Option (Clf α)
  est : ℕ → Option (Clf α)

/-- Row indices selected for a node's local training set: all rows in raw
mode, the non-empty cache rows in preprocessed mode (lines 488-496). -/
def selectedRowIdx {α : Type} (ctx : TrainCtx α) (n : ℕ) : List ℕ :=
  if ctx.featureExtraction = "raw" then List.range ctx.X.length
  else nnz_rows_ix ctx.rowNnz ((ctx.cache n).getD [])

/-- Feature rows selected for a node's local training set (X_ in the
source): the whole input in raw mode, the non-empty cached rows in
preprocessed mode. -/
def selectedX {α : Type} (ctx : TrainCtx α) (n : ℕ) : List α :=
  if ctx.featureExtraction = "raw" then ctx.X
  else selectRows ((ctx.cache n).getD []) (nnz_rows_ix ctx.rowNnz ((ctx.cache n).getD []))

/-- Rolled-up training targets for a node (y_ in the source, tree case):
the selected rows' labels mapped through the rollup resolver and flattened
(lines 498-507). -/
def rolledTargets {α : Type} (ctx : TrainCtx α) (n : ℕ) : List ℕ :=
  flatten_list (rollup_nodes ctx.reachFuel ctx.succ n
    ((selectedRowIdx ctx n).filterMap (fun i => ctx.y.get? i)))

/-- Embedding of train_local_classifier (classifier.py lines 477-573) for a
tree hierarchy with single-label targets.  Leaf nodes are skipped under the
lcpn algorithm; in preprocessed mode an empty selected feature subset causes
an early return with no classifier stored anywhere; a single distinct
rolled-up target selects the constant DummyClassifier fallback; in raw mode
a classifier is fitted and stored in the graph only when training rows
exist, but the classifier object is recorded in estimators_ regardless
(line 573). -/
def train_local_classifier {α : Type} (ctx : TrainCtx α) (st : TSt α) (n : ℕ) : TSt α :=
  if (ctx.succ n).length = 0 ∧ ctx.algorithm = "lcpn" then st
  else
    let Xsel := selectedX ctx n
    let ytr := rolledTargets ctx n
    let numTargets := (npUnique ytr).length
    if ctx.featureExtraction = "preprocessed" ∧ Xsel.length = 0 then st
    else
      let clfU : Clf α :=
        if numTargets = 1 then unfittedDummy α (ytr.headD 0) else unfittedBase α n
      if ctx.featureExtraction = "raw" then
        if 0 < Xsel.length then
          let f := fitClf ctx.be clfU Xsel ytr
          ⟨fset st.clf n (some f), fset st.est n (some f)⟩
        else
          ⟨st.clf, fset st.est n (some clfU)⟩
      else
        let f := fitClf ctx.be clfU Xsel ytr
        ⟨fset st.clf n (some f), fset st.est n (some f)⟩

/-- Embedding of recursive_train_local_classifiers (lines 461-475): skip a
node (and its whole subtree walk from this parent) when it already holds a
classifier, otherwise train locally and recurse into the successors. -/
def recursive_train_local_classifiers {α : Type} (ctx : TrainCtx α) :
    ℕ → TSt α → ℕ → TSt α
  | 0, st, _ => st
  | fuel+1, st, n =>
    if (st.clf n).isSome then st
    else
      let st1 := train_local_classifier ctx st n
      (ctx.succ n).foldl (fun s c => recursive_train_local_classifiers ctx fuel s c) st1

/-- C5: in preprocessed mode at a trainable node, a selected feature subset
with zero rows makes train_local_classifier return with the state untouched
(no classifier stored anywhere, no failure), and when exactly one distinct
target remains after rollup (with a nonempty subset) the node receives a
fitted constant-prediction DummyClassifier whose only class is that target
and whose probability mass is entirely on it. -/
theorem train_local_classifier_starved_and_single_target {α : Type}
    (ctx : TrainCtx α) (st : TSt α) (n : ℕ)
    (hfe : ctx.featureExtraction = "preprocessed")
    (hskip : ¬ ((ctx.succ n).length = 0 ∧ ctx.algorithm = "lcpn")) :
    (selectedX ctx n = [] → train_local_classifier ctx st n = st) ∧
    (selectedX ctx n ≠ [] → (npUnique (rolledTargets ctx n)).length = 1 →
      ∃ c, (train_local_classifier ctx st n).clf n = some c ∧
        (train_local_classifier ctx st n).est n = some c ∧
        c.kind = ClfKind.dummyConst ((rolledTargets ctx n).headD 0) ∧
        c.isFitted = true ∧
        c.cls = [(rolledTargets ctx n).headD 0] ∧
        ∀ x, c.proba x = [1]) := by
  constructor
  · intro hsel
    simp [train_local_classifier, hskip, hfe, hsel]
  · intro hsel hone
    have hlen : (selectedX ctx n).length ≠ 0 := by
      simpa [List.length_eq_zero] using hsel
    have hraw : ¬ ctx.featureExtraction = "raw" := by rw [hfe]; decide
    have hu := npUnique_length_one hone
    have hskip' : ¬ (ctx.succ n = [] ∧ ctx.algorithm = "lcpn") := by
      simpa [List.length_eq_zero] using hskip
    refine ⟨fitClf ctx.be (unfittedDummy α ((rolledTargets ctx n).headD 0))
      (selectedX ctx n) (rolledTargets ctx n), ?_, ?_, ?_, ?_, ?_, ?_⟩ <;>
      simp [train_local_classifier, hskip', hfe, hlen, hraw, hone, fitClf,
        unfittedDummy, fset, hu]

/-- Concrete training context for the C5 witness: a two-child root with all
rows labelled by the first child (single rolled-up target), and a leaf node
with an empty cache under the lcn algorithm (empty selected subset). -/
def ctxPre : TrainCtx Vec :=
  { succ := fun n => if n = 0 then [1, 2] else [], algorithm := "lcpn",
    featureExtraction := "preprocessed", X := [[1],[1]], y := [1, 1],
    cache := fun m => if m = 0 then some [[1],[1]] else some [],
    rowNnz := rowNnzQ, be := fun _ _ _ _ => [], reachFuel := 3 }

/-- C5 witness: on ctxPre, the starved leaf (node 3, under algorithm lcn) is
skipped leaving the state untouched, and the degenerate root (all rows roll
up to child 1) receives the constant fallback classifier. -/
theorem train_local_classifier_starved_and_single_target_witness :
    (train_local_classifier { ctxPre with algorithm := "lcn" }
        ⟨fun _ => none, fun _ => none⟩ 3 = ⟨fun _ => none, fun _ => none⟩) ∧
    (∃ c, (train_local_classifier ctxPre ⟨fun _ => none, fun _ => none⟩ 0).clf 0 = some c ∧
      (train_local_classifier ctxPre ⟨fun _ => none, fun _ => none⟩ 0).est 0 = some c ∧
      c.kind = ClfKind.dummyConst ((rolledTargets ctxPre 0).headD 0) ∧
      c.isFitted = true ∧
      c.cls = [(rolledTargets ctxPre 0).headD 0] ∧
      ∀ x, c.proba x = [1]) :=
  ⟨(train_local_classifier_starved_and_single_target
      { ctxPre with algorithm := "lcn" } ⟨fun _ => none, fun _ => none⟩ 3
      rfl (by decide)).1 (by decide),
    (train_local_classifier_starved_and_single_target
      ctxPre ⟨fun _ => none, fun _ => none⟩ 0
      rfl (by decide)).2 (by decide) (by decide)⟩

/-- C10: in raw mode with an empty training set at a trainable node, no
classifier is fitted or stored in the node's graph attributes, but the
unfitted base-estimator object is still recorded in the flat estimators_
mapping under that node (line 573 runs unconditionally), so the graph
attributes and estimators_ can disagree about which nodes have
classifiers. -/
theorem train_local_classifier_raw_empty_records_unfitted {α : Type}
    (ctx : TrainCtx α) (st : TSt α) (n : ℕ)
    (hfe : ctx.featureExtraction = "raw")
    (hskip : ¬ ((ctx.succ n).length = 0 ∧ ctx.algorithm = "lcpn"))
    (hX : ctx.X = [])
    (hclf : st.clf n = none) :
    (train_local_classifier ctx st n).clf n = none ∧
    (train_local_classifier ctx st n).est n = some (unfittedBase α n) ∧
    (unfittedBase α n).isFitted = false := by
  have hpre : ¬ ctx.featureExtraction = "preprocessed" := by rw [hfe]; decide
  have hsel : selectedX ctx n = [] := by simp [selectedX, hfe, hX]
  have hrt : rolledTargets ctx n = [] := by
    simp [rolledTargets, selectedRowIdx, hfe, hX, rollup_nodes, flatten_list]
  have hskip' : ¬ (ctx.succ n = [] ∧ ctx.algorithm = "lcpn") := by
    simpa [List.length_eq_zero] using hskip
  refine ⟨?_, ?_, rfl⟩ <;>
    simp [train_local_classifier, hskip', hpre, hfe, hsel, hrt, npUnique,
      List.dedup, fset, hclf, unfittedBase]

/-- Concrete raw-mode training context for the C10 witness. -/
def ctxRaw : TrainCtx Vec :=
  { succ := fun n => if n = 0 then [1, 2] else [], algorithm := "lcpn",
    featureExtraction := "raw", X := [], y := [],
    cache := fun _ => none, rowNnz := rowNnzQ,
    be := fun _ _ _ _ => [], reachFuel := 3 }

/-- C10 witness: on ctxRaw with no training rows, node 0 gets no graph
classifier but an unfitted estimator appears in estimators_. -/
theorem train_local_classifier_raw_empty_records_unfitted_witness :
    (train_local_classifier ctxRaw ⟨fun _ => none, fun _ => none⟩ 0).clf 0 = none ∧
    (train_local_classifier ctxRaw ⟨fun _ => none, fun _ => none⟩ 0).est 0 =
      some (unfittedBase Vec 0) ∧
    (unfittedBase Vec 0).isFitted = false :=
  train_local_classifier_raw_empty_records_unfitted ctxRaw
    ⟨fun _ => none, fun _ => none⟩ 0 rfl (by decide) rfl rfl

/-- Stopping criteria configuration: None, a numeric confidence threshold,
or a user callback receiving the current node's attribute record (feature
cache, classifier, metafeatures), the predicted child and the score. -/
inductive Stopping (α : Type) where
  | noCrit : Stopping α
  | numeric (t : ℚ) : Stopping α
  | callback (f : Option Mat × Option (Clf α) × Option Meta → ℕ → ℚ → Bool) : Stopping α

/-- Fitted-model state read by the prediction walk: hierarchy topology,
root, the flattened class list (classes_), the per-node graph attributes
(feature cache, fitted classifier, metafeatures), the flat estimators_
mapping, and the prediction-time configuration. -/
structure PSt (α : Type) where
  succ : ℕ → List ℕ
  root : ℕ
  classes : List ℕ
  clf : ℕ → Option (Clf α)
  cacheX : ℕ → Option Mat
  meta : ℕ → Option Meta
  est : ℕ → Option (Clf α)
  mlb : Option (List ℕ)
  mlbThreshold : ℚ
  predictionDepth : String
  stopping : Stopping α

/-- Embedding of should_early_terminate (classifier.py lines 659-692):
false whenever prediction_depth is not nmlnp; under nmlnp with a float
stopping criterion, true exactly when the score is below the threshold and
the current node is not the root; under nmlnp with a callable criterion,
whatever the callback returns; false otherwise. -/
def should_early_terminate {α : Type} (m : PSt α) (currentNode prediction : ℕ)
    (score : ℚ) : Bool :=
  if m.predictionDepth ≠ "nmlnp" then false
  else
    match m.stopping with
    | .numeric t =>
      if score < t then (if currentNode = m.root then false else true) else false
    | .callback f => f (m.cacheX currentNode, m.clf currentNode, m.meta currentNode)
        prediction score
    | .noCrit => false

/-- First index of the maximum entry, modelling np.argmax on a score row. -/
def idxOfMax (l : List ℚ) : ℕ :=
  (l.enum.foldl (fun best p => if best.2 < p.2 then p else best) (0, l.getD 0 0)).1

/-- Accumulator of the scatter loop over a local classifier's classes_
(lines 608-635): the global class-probability vector, the multi-label
fan-out predictions gathered so far, and the single-label argmax
prediction. -/
structure ScatterAcc where
  proba : PVec
  preds : List ℕ
  prediction : ℕ

/-- One iteration of the scatter loop for local class cls at local index i.
In multi-label mode the global position is the class value itself (the
multi-label binarizer's column index) and classes whose just-written score
exceeds the threshold are added to the fan-out predictions, translated
through mlb.classes_; in single-label mode the position is the index of the
class in the flattened class list and the argmax class becomes the
prediction.  Writing is by assignment into the vector, as in the source. -/
def scatterStep (mlbMode : Bool) (mlbClasses : List ℕ) (thr : ℚ) (classes : List ℕ)
    (probs : List ℚ) (amax : ℕ) (acc : ScatterAcc) (p : ℕ × ℕ) : ScatterAcc :=
  if mlbMode then
    let proba1 := acc.proba.set p.2 (probs.getD p.1 0)
    { proba := proba1
      preds := if thr < proba1.getD p.2 0 then acc.preds ++ [mlbClasses.getD p.2 0]
        else acc.preds
      prediction := acc.prediction }
  else
    { proba := acc.proba.set (classes.indexOf p.2) (probs.getD p.1 0)
      preds := acc.preds
      prediction := if p.1 = amax then p.2 else acc.prediction }

/-- Scatter loop over the enumerated classes_ of the local classifier. -/
def scatterFold (mlbMode : Bool) (mlbClasses : List ℕ) (thr : ℚ) (classes : List ℕ)
    (probs : List ℚ) (amax : ℕ) (acc : ScatterAcc) (l : List (ℕ × ℕ)) : ScatterAcc :=
  l.foldl (scatterStep mlbMode mlbClasses thr classes probs amax) acc

/-- Initial value of the prediction variable before the scatter loop: the
sole class when the local classifier has exactly one (lines 605-606). -/
def initPrediction {α : Type} (c : Clf α) : ℕ :=
  if c.cls.length = 1 then c.cls.headD 0 else 0

/-- Single-label while-loop of recursive_predict (lines 584-647, with
mlb None): score the example at the current classifier, scatter the local
scores into the global vector, stop if the early-termination predicate
fires, otherwise descend into the predicted child, ending naturally when it
has no classifier.  The model state is threaded and returned unchanged; fuel
bounds the walk length. -/
def predict_walk {α : Type} (m : PSt α) (x : α) :
    ℕ → List ℕ → PVec → Option (Clf α) → PSt α × List ℕ × PVec
  | _, path, proba, none => (m, path, proba)
  | 0, path, proba, some _ => (m, path, proba)
  | fuel+1, path, proba, some c =>
    let probs := c.proba x
    let amax := idxOfMax probs
    let score := probs.getD amax 0
    let sc := scatterFold false [] 0 m.classes probs amax
      ⟨proba, [], initPrediction c⟩ c.cls.enum
    if should_early_terminate m (path.getLastD m.root) sc.prediction score then
      (m, path, sc.proba)
    else
      predict_walk m x fuel (path ++ [sc.prediction]) sc.proba (m.clf sc.prediction)

/-- Embedding of recursive_predict (classifier.py lines 575-657).  A node
without a classifier yields none, modelling the (None, None) return.  With
a multi-label binarizer the while body runs exactly once (clf is set to None
before the fan-out loop), recursing into every prediction whose scattered
score exceeded the threshold, appending it and its returned path and
summing returned probability vectors; without one the single-label walk
runs.  State is threaded through every recursive call. -/
def recursive_predict {α : Type} (x : α) :
    ℕ → PSt α → ℕ → PSt α × Option (List ℕ × PVec)
  | 0, m, _ => (m, none)
  | fuel+1, m, root =>
    match m.clf root with
    | none => (m, none)
    | some c =>
      if m.mlb.isSome then
        let probs := c.proba x
        let amax := idxOfMax probs
        let sc := scatterFold true (m.mlb.getD []) m.mlbThreshold m.classes probs amax
          ⟨List.replicate m.classes.length 0, [], initPrediction c⟩ c.cls.enum
        let fan := sc.preds.foldl
          (fun (acc : PSt α × List ℕ × PVec) pred =>
            let r := recursive_predict x fuel acc.1 pred
            match r.2 with
            | some pr => (r.1, (acc.2.1 ++ [pred]) ++ pr.1, vecAdd acc.2.2 pr.2)
            | none => (r.1, acc.2.1 ++ [pred], acc.2.2))
          (m, [root], sc.proba)
        (fan.1, some fan.2)
      else
        let w := predict_walk m x fuel [root]
          (List.replicate m.classes.length 0) (some c)
        (w.1, some w.2)

/-- Per-example classification (the _classify closure of predict, lines
278-283): the full path in multi-label mode, the last path element
otherwise.  A none result is modelled as an empty path. -/
def classify_one {α : Type} (fuel : ℕ) (m : PSt α) (x : α) : PSt α × List ℕ :=
  let r := recursive_predict x fuel m m.root
  let path := (r.2.map Prod.fst).getD []
  (r.1, if m.mlb.isSome then path else [path.getLastD 0])

/-- Embedding of predict (lines 262-294) over a list of examples, state
threaded row by row. -/
def predict {α : Type} (fuel : ℕ) (m : PSt α) (X : List α) : PSt α × List (List ℕ) :=
  X.foldl (fun acc xi =>
    let r := classify_one fuel acc.1 xi
    (r.1, acc.2 ++ [r.2])) (m, [])

/-- Embedding of predict_proba (lines 296-326) over a list of examples. -/
def predict_proba {α : Type} (fuel : ℕ) (m : PSt α) (X : List α) :
    PSt α × List PVec :=
  X.foldl (fun acc xi =>
    let r := recursive_predict xi fuel acc.1 acc.1.root
    (r.1, acc.2 ++ [(r.2.map Prod.snd).getD []])) (m, [])

/-- Named form of one multi-label fan-out iteration (lines 650-655): recurse
into the predicted subtree, append the prediction to the path, and when the
sub-walk produced a result, extend the path with it and add its probability
vector into the accumulated one. -/
def fanStep {α : Type} (x : α) (fuel : ℕ) (acc : PSt α × List ℕ × PVec)
    (pred : ℕ) : PSt α × List ℕ × PVec :=
  let r := recursive_predict x fuel acc.1 pred
  match r.2 with
  | some pr => (r.1, (acc.2.1 ++ [pred]) ++ pr.1, vecAdd acc.2.2 pr.2)
  | none => (r.1, acc.2.1 ++ [pred], acc.2.2)

lemma predict_succ_eq {α : Type} (x : α) (fuel : ℕ) (m : PSt α) (root : ℕ) :
    recursive_predict x (fuel+1) m root =
      match m.clf root with
      | none => (m, none)
      | some c =>
        if m.mlb.isSome then
          let probs := c.proba x
          let amax := idxOfMax probs
          let sc := scatterFold true (m.mlb.getD []) m.mlbThreshold m.classes probs amax
            ⟨List.replicate m.classes.length 0, [], initPrediction c⟩ c.cls.enum
          let fan := sc.preds.foldl (fanStep x fuel) (m, [root], sc.proba)
          (fan.1, some fan.2)
        else
          let w := predict_walk m x fuel [root]
            (List.replicate m.classes.length 0) (some c)
          (w.1, some w.2) := rfl

lemma predict_walk_state {α : Type} (m : PSt α) (x : α) :
    ∀ (fuel : ℕ) (path : List ℕ) (proba : PVec) (co : Option (Clf α)),
      (predict_walk m x fuel path proba co).1 = m := by
  intro fuel
  induction fuel with
  | zero => intro path proba co; cases co <;> rfl
  | succ f ih =>
    intro path proba co
    cases co with
    | none => rfl
    | some c =>
      simp only [predict_walk]
      split
      · rfl
      · apply ih

lemma recursive_predict_state {α : Type} (x : α) :
    ∀ (fuel : ℕ) (m : PSt α) (n : ℕ), (recursive_predict x fuel m n).1 = m := by
  intro fuel
  induction fuel with
  | zero => intro m n; rfl
  | succ f ih =>
    intro m n
    rw [predict_succ_eq]
    cases hc : m.clf n with
    | none => rfl
    | some c =>
      by_cases hm : m.mlb.isSome
      · simp only [hm, if_true]
        have hfold : ∀ (l : List ℕ) (acc : PSt α × List ℕ × PVec), acc.1 = m →
            ((l.foldl (fanStep x f) acc)).1 = m := by
          intro l
          induction l with
          | nil => intro acc h; exact h
          | cons a t iht =>
            intro acc h
            rw [List.foldl_cons]
            apply iht
            have hr : (recursive_predict x f acc.1 a).1 = acc.1 := ih acc.1 a
            show (fanStep x f acc a).1 = m
            simp only [fanStep]
            cases hrr : (recursive_predict x f acc.1 a).2 <;>
              simp only [hrr] <;> exact hr.trans h
        exact hfold _ _ rfl
      · simp only [hm, if_false]
        exact predict_walk_state m x f [n] _ (some c)

/-- C6: a node holding no fitted classifier yields the (None, None) result
immediately from the prediction walk, without failure: the embedding is
total and returns none for any fuel. -/
theorem recursive_predict_no_classifier {α : Type} (x : α) (fuel : ℕ)
    (m : PSt α) (n : ℕ) (h : m.clf n = none) :
    (recursive_predict x fuel m n).2 = none := by
  cases fuel with
  | zero => rfl
  | succ f => rw [predict_succ_eq, h]

/-- Concrete fitted model whose root lacks a classifier, for the C6
witness. -/
def mEmpty : PSt Vec :=
  { succ := fun _ => [], root := 0, classes := [1], clf := fun _ => none,
    cacheX := fun _ => none, meta := fun _ => none, est := fun _ => none,
    mlb := none, mlbThreshold := 0, predictionDepth := "mlnp",
    stopping := .noCrit }

/-- C6 witness: invoking the walk at the classifier-less root of mEmpty
returns none. -/
theorem recursive_predict_no_classifier_witness :
    (recursive_predict ([] : Vec) 7 mEmpty 0).2 = none :=
  recursive_predict_no_classifier ([] : Vec) 7 mEmpty 0 rfl

/-- C8: prediction never mutates fitted state.  The threaded model state --
hierarchy topology, flattened class list, per-node feature caches, fitted
classifiers and metafeatures, the estimators_ mapping and all configuration
-- comes out of the recursive prediction walk, the single-label while loop,
predict and predict_proba exactly as it went in. -/
theorem prediction_leaves_fitted_state_unchanged :
    (∀ (α : Type) (x : α) (fuel : ℕ) (m : PSt α) (n : ℕ),
      (recursive_predict x fuel m n).1 = m) ∧
    (∀ (α : Type) (m : PSt α) (x : α) (fuel : ℕ) (path : List ℕ) (proba : PVec)
      (co : Option (Clf α)), (predict_walk m x fuel path proba co).1 = m) ∧
    (∀ (α : Type) (fuel : ℕ) (m : PSt α) (X : List α), (predict fuel m X).1 = m) ∧
    (∀ (α : Type) (fuel : ℕ) (m : PSt α) (X : List α), (predict_proba fuel m X).1 = m) := by
  have hwalk : ∀ (α : Type) (m : PSt α) (x : α) (fuel : ℕ) (path : List ℕ)
      (proba : PVec) (co : Option (Clf α)),
      (predict_walk m x fuel path proba co).1 = m :=
    fun α m x fuel path proba co => predict_walk_state m x fuel path proba co
  have hrec : ∀ (α : Type) (x : α) (fuel : ℕ) (m : PSt α) (n : ℕ),
      (recursive_predict x fuel m n).1 = m :=
    fun α x fuel m n => recursive_predict_state x fuel m n
  refine ⟨hrec, hwalk, ?_, ?_⟩
  · intro α fuel m X
    have h : ∀ (X : List α) (acc : PSt α × List (List ℕ)), acc.1 = m →
        ((X.foldl (fun acc xi =>
          let r := classify_one fuel acc.1 xi
          (r.1, acc.2 ++ [r.2])) acc)).1 = m := by
      intro X
      induction X with
      | nil => intro acc h; exact h
      | cons a t iht =>
        intro acc h
        rw [List.foldl_cons]
        apply iht
        show (classify_one fuel acc.1 a).1 = m
        unfold classify_one
        simpa [h] using hrec α a fuel acc.1 acc.1.root
    exact h X (m, []) rfl
  · intro α fuel m X
    have h : ∀ (X : List α) (acc : PSt α × List PVec), acc.1 = m →
        ((X.foldl (fun acc xi =>
          let r := recursive_predict xi fuel acc.1 acc.1.root
          (r.1, acc.2 ++ [(r.2.map Prod.snd).getD []])) acc)).1 = m := by
      intro X
      induction X with
      | nil => intro acc h; exact h
      | cons a t iht =>
        intro acc h
        rw [List.foldl_cons]
        apply iht
        simpa [h] using hrec α a fuel acc.1 acc.1.root
    exact h X (m, []) rfl

/-- Rational one half, built without normalization so that concrete walks
reduce in the kernel. -/
def qhalf : ℚ := ⟨1, 2, by decide, by decide⟩

/-- Rational 99/100, the stopping threshold of the early-termination
scenario. -/
def q99 : ℚ := ⟨99, 100, by decide, by decide⟩

/-- Concrete nmlnp model for the early-termination scenario: a chain
0 to 1 to 2 with stopping threshold 99/100, where the classifier at the
root's child 1 scores 1/2 and node 2 also holds a classifier. -/
def mStop : PSt Vec :=
  { succ := fun n => if n = 0 then [1] else if n = 1 then [2] else []
    root := 0
    classes := [1, 2]
    clf := fun n =>
      if n = 0 then some ⟨.base 0, true, [1], fun _ => [1]⟩
      else if n = 1 then some ⟨.base 1, true, [2], fun _ => [qhalf]⟩
      else if n = 2 then some ⟨.base 2, true, [2], fun _ => [1]⟩
      else none
    cacheX := fun _ => none
    meta := fun _ => none
    est := fun _ => none
    mlb := none
    mlbThreshold := 0
    predictionDepth := "nmlnp"
    stopping := .numeric q99 }

/-- C3: the early-termination predicate is false for every node and score
when prediction_depth is not nmlnp; under nmlnp with a float criterion it is
true exactly when the score is below the threshold and the current node is
not the root; consequently, on mStop an example scoring 1/2 at the root's
child with threshold 99/100 terminates at that child (path [0, 1]) and does
not descend into node 2 although node 2 holds a classifier. -/
theorem should_early_terminate_spec :
    (∀ (α : Type) (m : PSt α) (n p : ℕ) (s : ℚ), m.predictionDepth ≠ "nmlnp" →
      should_early_terminate m n p s = false) ∧
    (∀ (α : Type) (m : PSt α) (n p : ℕ) (s t : ℚ), m.predictionDepth = "nmlnp" →
      m.stopping = Stopping.numeric t →
      (should_early_terminate m n p s = true ↔ s < t ∧ n ≠ m.root)) ∧
    (recursive_predict ([] : Vec) 10 mStop 0).2 = some ([0, 1], [1, qhalf]) := by
  refine ⟨?_, ?_, by decide⟩
  · intro α m n p s h
    simp [should_early_terminate, h]
  · intro α m n p s t hd hs
    rw [should_early_terminate, hs]
    by_cases hst : s < t
    · by_cases hr : n = m.root
      · simp [hd, hst, hr]
      · simp [hd, hst, hr]
    · simp [hd, hst]

/-- C3 witness: the predicate instances at concrete inputs: a mandatory-leaf
model never terminates early, and on mStop (nmlnp, threshold 99/100) the
predicate at node 1 with score 1/2 reduces to the conjunction on the
right-hand side of the iff. -/
theorem should_early_terminate_spec_witness :
    should_early_terminate mEmpty 1 2 0 = false ∧
    (should_early_terminate mStop 1 2 qhalf = true ↔ qhalf < q99 ∧ 1 ≠ mStop.root) :=
  ⟨should_early_terminate_spec.1 Vec mEmpty 1 2 0 (by decide),
    should_early_terminate_spec.2.1 Vec mStop 1 2 qhalf q99 rfl rfl⟩

lemma getD_set_self_q (v : ℚ) : ∀ (l : PVec) (i : ℕ), i < l.length →
    (l.set i v).getD i 0 = v := by
  intro l
  induction l with
  | nil => intro i h; simp at h
  | cons a t ih =>
    intro i h
    cases i with
    | zero => rfl
    | succ k => simpa [List.getD] using ih k (by simpa using h)

lemma getD_set_ne_q (v : ℚ) : ∀ (l : PVec) (i j : ℕ), i ≠ j →
    (l.set i v).getD j 0 = l.getD j 0 := by
  intro l
  induction l with
  | nil => intro i j _; simp
  | cons a t ih =>
    intro i j hij
    cases i with
    | zero =>
      cases j with
      | zero => exact absurd rfl hij
      | succ k => rfl
    | succ i' =>
      cases j with
      | zero => rfl
      | succ k => simpa [List.getD] using ih i' k (fun e => hij (by rw [e]))

/-- Global position a scatter iteration writes to: the class value itself
(the binarizer's column index) in multi-label mode, the index of the class
in the flattened class list otherwise. -/
def scatterPos (mlbMode : Bool) (classes : List ℕ) (p : ℕ × ℕ) : ℕ :=
  if mlbMode then p.2 else classes.indexOf p.2

lemma scatterStep_proba (mlbMode : Bool) (mlbClasses : List ℕ) (thr : ℚ)
    (classes : List ℕ) (probs : List ℚ) (amax : ℕ) (acc : ScatterAcc) (p : ℕ × ℕ) :
    (scatterStep mlbMode mlbClasses thr classes probs amax acc p).proba =
      acc.proba.set (scatterPos mlbMode classes p) (probs.getD p.1 0) := by
  cases mlbMode <;> simp [scatterStep, scatterPos]

lemma scatterFold_proba_length (mlbMode : Bool) (mlbClasses : List ℕ) (thr : ℚ)
    (classes : List ℕ) (probs : List ℚ) (amax : ℕ) :
    ∀ (l : List (ℕ × ℕ)) (acc : ScatterAcc),
      (scatterFold mlbMode mlbClasses thr classes probs amax acc l).proba.length =
        acc.proba.length := by
  intro l
  induction l with
  | nil => intro acc; rfl
  | cons a t ih =>
    intro acc
    rw [scatterFold, List.foldl_cons]
    rw [show List.foldl (scatterStep mlbMode mlbClasses thr classes probs amax)
      (scatterStep mlbMode mlbClasses thr classes probs amax acc a) t =
      scatterFold mlbMode mlbClasses thr classes probs amax
        (scatterStep mlbMode mlbClasses thr classes probs amax acc a) t from rfl]
    rw [ih]
    rw [scatterStep_proba]
    exact List.length_set ..

lemma scatterFold_getD_untouched (mlbMode : Bool) (mlbClasses : List ℕ) (thr : ℚ)
    (classes : List ℕ) (probs : List ℚ) (amax : ℕ) (j : ℕ) :
    ∀ (l : List (ℕ × ℕ)) (acc : ScatterAcc),
      (∀ p ∈ l, scatterPos mlbMode classes p ≠ j) →
      (scatterFold mlbMode mlbClasses thr classes probs amax acc l).proba.getD j 0 =
        acc.proba.getD j 0 := by
  intro l
  induction l with
  | nil => intro acc _; rfl
  | cons a t ih =>
    intro acc h
    rw [scatterFold, List.foldl_cons]
    rw [show List.foldl (scatterStep mlbMode mlbClasses thr classes probs amax)
      (scatterStep mlbMode mlbClasses thr classes probs amax acc a) t =
      scatterFold mlbMode mlbClasses thr classes probs amax
        (scatterStep mlbMode mlbClasses thr classes probs amax acc a) t from rfl]
    rw [ih _ (fun p hp => h p (List.mem_cons_of_mem a hp))]
    rw [scatterStep_proba]
    exact getD_set_ne_q _ _ _ _ (h a (List.mem_cons_self a t))

lemma scatterFold_getD_written (mlbMode : Bool) (mlbClasses : List ℕ) (thr : ℚ)
    (classes : List ℕ) (probs : List ℚ) (amax : ℕ) :
    ∀ (l : List (ℕ × ℕ)) (acc : ScatterAcc),
      (l.map (scatterPos mlbMode classes)).Nodup →
      ∀ p ∈ l, scatterPos mlbMode classes p < acc.proba.length →
      (scatterFold mlbMode mlbClasses thr classes probs amax acc l).proba.getD
          (scatterPos mlbMode classes p) 0 =
        probs.getD p.1 0 := by
  intro l
  induction l with
  | nil => intro acc _ p hp; exact absurd hp (List.not_mem_nil p)
  | cons a t ih =>
    intro acc hnd p hp hlt
    rw [scatterFold, List.foldl_cons]
    rw [show List.foldl (scatterStep mlbMode mlbClasses thr classes probs amax)
      (scatterStep mlbMode mlbClasses thr classes probs amax acc a) t =
      scatterFold mlbMode mlbClasses thr classes probs amax
        (scatterStep mlbMode mlbClasses thr classes probs amax acc a) t from rfl]
    rw [List.map_cons] at hnd
    rcases List.mem_cons.mp hp with rfl | hpt
    · have hnotin : scatterPos mlbMode classes p ∉ t.map (scatterPos mlbMode classes) :=
        (List.nodup_cons.mp hnd).1
      rw [scatterFold_getD_untouched mlbMode mlbClasses thr classes probs amax _ t _
        (fun q hq e => hnotin
          (by rw [← e]; exact List.mem_map_of_mem (scatterPos mlbMode classes) hq))]
      rw [scatterStep_proba]
      exact getD_set_self_q _ _ _ hlt
    · have hnd' : (t.map (scatterPos mlbMode classes)).Nodup :=
        (List.nodup_cons.mp hnd).2
      have hlt' : scatterPos mlbMode classes p <
          (scatterStep mlbMode mlbClasses thr classes probs amax acc a).proba.length := by
        rw [scatterStep_proba, List.length_set]; exact hlt
      exact ih _ hnd' p hpt hlt'

lemma vecAdd_getD (j : ℕ) : ∀ (a b : PVec), a.length = b.length →
    (vecAdd a b).getD j 0 = a.getD j 0 + b.getD j 0 := by
  intro a
  induction a generalizing j with
  | nil =>
    intro b h
    have : b = [] := List.length_eq_zero.mp h.symm
    subst this; simp [vecAdd]
  | cons x t ih =>
    intro b h
    cases b with
    | nil => simp at h
    | cons y u =>
      cases j with
      | zero => simp [vecAdd]
      | succ k => simpa [vecAdd, List.getD] using ih k u (by simpa using h)

lemma predict_walk_vec_length {α : Type} (m : PSt α) (x : α) :
    ∀ (fuel : ℕ) (path : List ℕ) (proba : PVec) (co : Option (Clf α)),
      ((predict_walk m x fuel path proba co).2.2).length = proba.length := by
  intro fuel
  induction fuel with
  | zero => intro path proba co; cases co <;> rfl
  | succ f ih =>
    intro path proba co
    cases co with
    | none => rfl
    | some c =>
      simp only [predict_walk]
      split
      · exact scatterFold_proba_length false [] 0 m.classes (c.proba x)
          (idxOfMax (c.proba x)) c.cls.enum ⟨proba, [], initPrediction c⟩
      · rw [ih]
        exact scatterFold_proba_length false [] 0 m.classes (c.proba x)
          (idxOfMax (c.proba x)) c.cls.enum ⟨proba, [], initPrediction c⟩

lemma recursive_predict_vec_length {α : Type} (x : α) :
    ∀ (fuel : ℕ) (m : PSt α) (n : ℕ) (pv : List ℕ × PVec),
      (recursive_predict x fuel m n).2 = some pv → pv.2.length = m.classes.length := by
  intro fuel
  induction fuel with
  | zero => intro m n pv h; exact absurd h (by simp [recursive_predict])
  | succ f ih =>
    intro m n pv h
    rw [predict_succ_eq] at h
    cases hc : m.clf n with
    | none => rw [hc] at h; exact absurd h (by simp)
    | some c =>
      rw [hc] at h
      by_cases hm : m.mlb.isSome
      · simp only [hm, if_true] at h
        have hfold : ∀ (l : List ℕ) (acc : PSt α × List ℕ × PVec), acc.1 = m →
            acc.2.2.length = m.classes.length →
            ((l.foldl (fanStep x f) acc)).2.2.length = m.classes.length := by
          intro l
          induction l with
          | nil => intro acc _ hl; exact hl
          | cons a t iht =>
            intro acc hst hl
            rw [List.foldl_cons]
            have hst' : (fanStep x f acc a).1 = m := by
              simp only [fanStep]
              cases hrr : (recursive_predict x f acc.1 a).2 <;>
                simp only [hrr] <;>
                exact (recursive_predict_state x f acc.1 a).trans hst
            apply iht _ hst'
            simp only [fanStep]
            cases hrr : (recursive_predict x f acc.1 a).2 with
            | none => simpa using hl
            | some pr =>
              have hpr : pr.2.length = m.classes.length := by
                rw [← hst]; exact ih acc.1 a pr hrr
              simp only [vecAdd, List.length_zipWith, hl, hpr, min_self]
        obtain rfl := (Option.some.inj h).symm
        apply hfold _ _ rfl
        rw [scatterFold_proba_length]
        exact List.length_replicate _ _
      · simp only [hm, if_false] at h
        obtain rfl := (Option.some.inj h).symm
        rw [predict_walk_vec_length]
        exact List.length_replicate _ _

lemma fanout_fold_sum {α : Type} (x : α) (f : ℕ) (m : PSt α) (j : ℕ) :
    ∀ (l : List ℕ) (acc : PSt α × List ℕ × PVec), acc.1 = m →
      acc.2.2.length = m.classes.length →
      ((l.foldl (fanStep x f) acc)).2.2.getD j 0 =
        acc.2.2.getD j 0 + (l.map (fun pred =>
          match (recursive_predict x f m pred).2 with
          | some pr => pr.2.getD j 0
          | none => 0)).sum := by
  intro l
  induction l with
  | nil => intro acc _ _; simp
  | cons a t iht =>
    intro acc hst hl
    rw [List.foldl_cons, List.map_cons, List.sum_cons]
    have hstate : (recursive_predict x f acc.1 a).1 = acc.1 :=
      recursive_predict_state x f acc.1 a
    rw [hst] at hstate
    cases hrr : (recursive_predict x f m a).2 with
    | none =>
      have hfs : fanStep x f acc a = ((recursive_predict x f m a).1, acc.2.1 ++ [a], acc.2.2) := by
        simp only [fanStep, hst, hrr]
      rw [hfs]
      rw [iht _ (by simpa using hstate) (by simpa using hl)]
      simp
    | some pr =>
      have hpr : pr.2.length = m.classes.length :=
        recursive_predict_vec_length x f m a pr hrr
      have hfs : fanStep x f acc a =
          ((recursive_predict x f m a).1, (acc.2.1 ++ [a]) ++ pr.1, vecAdd acc.2.2 pr.2) := by
        simp only [fanStep, hst, hrr]
      rw [hfs]
      rw [iht _ (by simpa using hstate)
        (by simp [vecAdd, List.length_zipWith, hl, hpr, min_self])]
      rw [vecAdd_getD j acc.2.2 pr.2 (hl.trans hpr.symm)]
      ring

/-- C4: local class scores are scattered into the global class-probability
vector at the position each local class denotes -- its index in the
flattened class list in single-label mode, the multi-label binarizer's
column index in multi-label mode -- and in multi-label DAG fan-out the
returned vector is the scatter vector of the visited node plus the sum of
the vectors returned by the sub-walks it fanned out into, so repeated visits
accumulate instead of overwriting each other. -/
theorem scatter_positions_and_fanout_accumulation :
    (∀ (classes : List ℕ) (probs : List ℚ) (amax : ℕ) (acc : ScatterAcc)
      (l : List (ℕ × ℕ)), (l.map (fun p => classes.indexOf p.2)).Nodup →
      ∀ p ∈ l, classes.indexOf p.2 < acc.proba.length →
      (scatterFold false [] 0 classes probs amax acc l).proba.getD
        (classes.indexOf p.2) 0 = probs.getD p.1 0) ∧
    (∀ (mlbClasses : List ℕ) (thr : ℚ) (classes : List ℕ) (probs : List ℚ)
      (amax : ℕ) (acc : ScatterAcc) (l : List (ℕ × ℕ)),
      (l.map Prod.snd).Nodup →
      ∀ p ∈ l, p.2 < acc.proba.length →
      (scatterFold true mlbClasses thr classes probs amax acc l).proba.getD p.2 0 =
        probs.getD p.1 0) ∧
    (∀ (α : Type) (x : α) (f : ℕ) (m : PSt α) (root : ℕ) (c : Clf α),
      m.clf root = some c → m.mlb.isSome →
      ∀ pv, (recursive_predict x (f+1) m root).2 = some pv →
      ∀ j, pv.2.getD j 0 =
        (scatterFold true (m.mlb.getD []) m.mlbThreshold m.classes (c.proba x)
          (idxOfMax (c.proba x)) ⟨List.replicate m.classes.length 0, [], initPrediction c⟩
          c.cls.enum).proba.getD j 0 +
        ((scatterFold true (m.mlb.getD []) m.mlbThreshold m.classes (c.proba x)
          (idxOfMax (c.proba x)) ⟨List.replicate m.classes.length 0, [], initPrediction c⟩
          c.cls.enum).preds.map (fun pred =>
            match (recursive_predict x f m pred).2 with
            | some pr => pr.2.getD j 0
            | none => 0)).sum) := by
  refine ⟨?_, ?_, ?_⟩
  · intro classes probs amax acc l hnd p hp hlt
    have h := scatterFold_getD_written false [] 0 classes probs amax l acc
      (by simpa [scatterPos] using hnd) p hp (by simpa [scatterPos] using hlt)
    simpa [scatterPos] using h
  · intro mlbClasses thr classes probs amax acc l hnd p hp hlt
    have h := scatterFold_getD_written true mlbClasses thr classes probs amax l acc
      (by simpa [scatterPos] using hnd) p hp (by simpa [scatterPos] using hlt)
    simpa [scatterPos] using h
  · intro α x f m root c hc hm pv h j
    rw [predict_succ_eq, hc] at h
    simp only [hm, if_true] at h
    obtain rfl := (Option.some.inj h).symm
    apply fanout_fold_sum x f m j _ _ rfl
    rw [scatterFold_proba_length]
    exact List.length_replicate _ _

/-- Rational 2/5, a fan-out score above the multi-label threshold. -/
def q2of5 : ℚ := ⟨2, 5, by decide, by decide⟩

/-- Rational 1/10, a fan-out score below the multi-label threshold. -/
def q1of10 : ℚ := ⟨1, 10, by decide, by decide⟩

/-- Rational 3/10, the multi-label prediction threshold of the fan-out
scenario. -/
def q3of10 : ℚ := ⟨3, 10, by decide, by decide⟩

/-- Concrete multi-label model for the fan-out scenario: a root with two
children whose binarizer columns 0 and 1 map to nodes 1 and 2, local scores
2/5 and 1/10, and threshold 3/10. -/
def mFan : PSt Vec :=
  { succ := fun n => if n = 0 then [1, 2] else []
    root := 0
    classes := [1, 2]
    clf := fun n =>
      if n = 0 then some ⟨.base 0, true, [0, 1], fun _ => [q2of5, q1of10]⟩ else none
    cacheX := fun _ => none
    meta := fun _ => none
    est := fun _ => none
    mlb := some [1, 2]
    mlbThreshold := q3of10
    predictionDepth := "mlnp"
    stopping := .noCrit }

/-- C4 witness: the scatter-position parts instantiated on concrete
two-class folds, and the accumulation part instantiated on the concrete
multi-label walk of mFan at position 0. -/
theorem scatter_positions_and_fanout_accumulation_witness :
    ((scatterFold false [] 0 [1, 2] [1, qhalf] 0 ⟨[0, 0], [], 0⟩
        [(0, 1), (1, 2)]).proba.getD ([1, 2].indexOf 1) 0 = [1, qhalf].getD 0 0) ∧
    ((scatterFold true [1, 2] q3of10 [1, 2] [q2of5, q1of10] 0 ⟨[0, 0], [], 0⟩
        [(0, 0), (1, 1)]).proba.getD 0 0 = [q2of5, q1of10].getD 0 0) ∧
    (([0, 1], [q2of5, q1of10]) : List ℕ × PVec).2.getD 0 0 =
      (scatterFold true (mFan.mlb.getD []) mFan.mlbThreshold mFan.classes
        ((⟨.base 0, true, [0, 1], fun _ => [q2of5, q1of10]⟩ : Clf Vec).proba [])
        (idxOfMax ((⟨.base 0, true, [0, 1], fun _ => [q2of5, q1of10]⟩ : Clf Vec).proba []))
        ⟨List.replicate mFan.classes.length 0, [],
          initPrediction (⟨.base 0, true, [0, 1], fun _ => [q2of5, q1of10]⟩ : Clf Vec)⟩
        (⟨.base 0, true, [0, 1], fun _ => [q2of5, q1of10]⟩ : Clf Vec).cls.enum).proba.getD 0 0 +
      ((scatterFold true (mFan.mlb.getD []) mFan.mlbThreshold mFan.classes
        ((⟨.base 0, true, [0, 1], fun _ => [q2of5, q1of10]⟩ : Clf Vec).proba [])
        (idxOfMax ((⟨.base 0, true, [0, 1], fun _ => [q2of5, q1of10]⟩ : Clf Vec).proba []))
        ⟨List.replicate mFan.classes.length 0, [],
          initPrediction (⟨.base 0, true, [0, 1], fun _ => [q2of5, q1of10]⟩ : Clf Vec)⟩
        (⟨.base 0, true, [0, 1], fun _ => [q2of5, q1of10]⟩ : Clf Vec).cls.enum).preds.map
          (fun pred =>
            match (recursive_predict ([] : Vec) 9 mFan pred).2 with
            | some pr => pr.2.getD 0 0
            | none => 0)).sum :=
  ⟨scatter_positions_and_fanout_accumulation.1 [1, 2] [1, qhalf] 0 ⟨[0, 0], [], 0⟩
      [(0, 1), (1, 2)] (by decide) (0, 1) (by decide) (by decide),
    scatter_positions_and_fanout_accumulation.2.1 [1, 2] q3of10 [1, 2] [q2of5, q1of10] 0
      ⟨[0, 0], [], 0⟩ [(0, 0), (1, 1)] (by decide) (0, 0) (by decide) (by decide),
    scatter_positions_and_fanout_accumulation.2.2 Vec ([] : Vec) 9 mFan 0
      ⟨.base 0, true, [0, 1], fun _ => [q2of5, q1of10]⟩ rfl rfl
      ([0, 1], [q2of5, q1of10]) (by decide) 0⟩

lemma scatterFold_preds_mlb (mlbClasses : List ℕ) (thr : ℚ) (classes : List ℕ)
    (probs : List ℚ) (amax : ℕ) :
    ∀ (l : List (ℕ × ℕ)) (acc : ScatterAcc), (∀ p ∈ l, p.2 < acc.proba.length) →
      (scatterFold true mlbClasses thr classes probs amax acc l).preds =
        acc.preds ++ (l.filter (fun p => thr < probs.getD p.1 0)).map
          (fun p => mlbClasses.getD p.2 0) := by
  intro l
  induction l with
  | nil => intro acc _; simp [scatterFold]
  | cons a t ih =>
    intro acc hb
    rw [scatterFold, List.foldl_cons]
    rw [show List.foldl (scatterStep true mlbClasses thr classes probs amax)
      (scatterStep true mlbClasses thr classes probs amax acc a) t =
      scatterFold true mlbClasses thr classes probs amax
        (scatterStep true mlbClasses thr classes probs amax acc a) t from rfl]
    have hv : ((acc.proba.set a.2 (probs.getD a.1 0)).getD a.2 0) = probs.getD a.1 0 :=
      getD_set_self_q _ _ _ (hb a (List.mem_cons_self a t))
    rw [show scatterStep true mlbClasses thr classes probs amax acc a =
        (⟨acc.proba.set a.2 (probs.getD a.1 0),
          if thr < (acc.proba.set a.2 (probs.getD a.1 0)).getD a.2 0 then
            acc.preds ++ [mlbClasses.getD a.2 0] else acc.preds,
          acc.prediction⟩ : ScatterAcc) from rfl]
    rw [hv]
    rw [ih ⟨acc.proba.set a.2 (probs.getD a.1 0),
        if thr < probs.getD a.1 0 then acc.preds ++ [mlbClasses.getD a.2 0]
        else acc.preds,
        acc.prediction⟩
      (fun p hp => by
        rw [List.length_set]; exact hb p (List.mem_cons_of_mem a hp))]
    rw [List.filter_cons]
    by_cases hth : thr < probs.getD a.1 0
    · rw [List.getD_eq_getElem?_getD] at hth
      simp [hth, List.append_assoc]
    · rw [List.getD_eq_getElem?_getD] at hth
      simp [hth]

/-- C9: in multi-label mode the fan-out targets are exactly the local
classes whose just-scattered score strictly exceeds the prediction
threshold, translated through the binarizer's class list; the walker then
recurses into each target, appending it and its returned path and summing
returned vectors.  On mFan (threshold 3/10, sibling scores 2/5 and 1/10)
the walk fans out into exactly the 2/5-scoring subtree, node 1, giving path
[0, 1]. -/
theorem mlb_fanout_threshold :
    (∀ (mlbClasses : List ℕ) (thr : ℚ) (classes : List ℕ) (probs : List ℚ)
      (amax : ℕ) (acc : ScatterAcc) (l : List (ℕ × ℕ)),
      acc.preds = [] → (∀ p ∈ l, p.2 < acc.proba.length) →
      (scatterFold true mlbClasses thr classes probs amax acc l).preds =
        (l.filter (fun p => thr < probs.getD p.1 0)).map
          (fun p => mlbClasses.getD p.2 0)) ∧
    (recursive_predict ([] : Vec) 10 mFan 0).2 = some ([0, 1], [q2of5, q1of10]) := by
  constructor
  · intro mlbClasses thr classes probs amax acc l hpreds hb
    rw [scatterFold_preds_mlb mlbClasses thr classes probs amax l acc hb, hpreds]
    simp
  · decide

/-- C9 witness: the fan-out target characterization instantiated on the
concrete scatter of mFan's root classifier. -/
theorem mlb_fanout_threshold_witness :
    (scatterFold true [1, 2] q3of10 [1, 2] [q2of5, q1of10] 0 ⟨[0, 0], [], 0⟩
        [(0, 0), (1, 1)]).preds =
      ([(0, 0), (1, 1)].filter
        (fun p => q3of10 < [q2of5, q1of10].getD p.1 0)).map (fun p => [1, 2].getD p.2 0) :=
  mlb_fanout_threshold.1 [1, 2] q3of10 [1, 2] [q2of5, q1of10] 0 ⟨[0, 0], [], 0⟩
    [(0, 0), (1, 1)] rfl (by decide)

lemma idxOfMax_pair {p q : ℚ} (h : q < p) : idxOfMax [p, q] = 0 := by
  simp [idxOfMax, List.enum, List.enumFrom, lt_irrefl, h.asymm]

lemma predict_walk_descend {α : Type} (m : PSt α) (x : α) (fuel : ℕ) (path : List ℕ)
    (proba : PVec) (k : ClfKind) (b : Bool) (cls : List ℕ) (pf : α → List ℚ)
    (probs : List ℚ) (amax : ℕ) (sc : ScatterAcc)
    (hp : pf x = probs)
    (ha : idxOfMax probs = amax)
    (hsc : scatterFold false [] 0 m.classes probs amax
      ⟨proba, [], initPrediction ⟨k, b, cls, pf⟩⟩ cls.enum = sc)
    (hterm : should_early_terminate m (path.getLastD m.root) sc.prediction
      (probs.getD amax 0) = false) :
    predict_walk m x (fuel+1) path proba (some ⟨k, b, cls, pf⟩) =
      predict_walk m x fuel (path ++ [sc.prediction]) sc.proba
        (m.clf sc.prediction) := by
  subst hp ha hsc
  simp only [predict_walk, hterm, Bool.false_eq_true, if_false]

/-- Hierarchy of the lcpn end-to-end scenario: root 0 with children 1 (A)
and 2 (B); node 1 with children 3 (A1) and 4 (A2). -/
def succC1 : ℕ → List ℕ :=
  fun n => if n = 0 then [1, 2] else if n = 1 then [3, 4] else []

/-- Training matrix of the scenario: three one-hot rows. -/
def XC1 : Mat := [[1,0,0],[0,1,0],[0,0,1]]

/-- Training labels of the scenario: rows labelled A1 (3), A2 (4), B (2);
only leaves carry training rows. -/
def yC1 : List ℕ := [3, 4, 2]

/-- Feature-building pass of the scenario, run from the root as fit does. -/
def bstC1 : BSt :=
  (recursive_build_features succC1 (fun _ => true) XC1 yC1 10
    ⟨fun _ => none, fun _ => none⟩ 0).1

/-- Training context of the scenario: lcpn, preprocessed features, the
caches produced by the feature pass, and an abstract base estimator be. -/
def ctxC1 (be : ℕ → List Vec → List ℕ → Vec → List ℚ) : TrainCtx Vec :=
  { succ := succC1, algorithm := "lcpn", featureExtraction := "preprocessed",
    X := XC1, y := yC1, cache := bstC1.cache, rowNnz := rowNnzQ,
    be := be, reachFuel := 5 }

/-- Classifier-training pass of the scenario, run from the root. -/
def fitC1 (be : ℕ → List Vec → List ℕ → Vec → List ℚ) : TSt Vec :=
  recursive_train_local_classifiers (ctxC1 be) 10 ⟨fun _ => none, fun _ => none⟩ 0

/-- Fitted model of the scenario: flattened classes [1,2,3,4] (all nodes
except the root), the trained classifiers, mandatory-leaf prediction. -/
def modelC1 (be : ℕ → List Vec → List ℕ → Vec → List ℚ) : PSt Vec :=
  { succ := succC1, root := 0, classes := [1, 2, 3, 4],
    clf := (fitC1 be).clf, cacheX := bstC1.cache, meta := bstC1.meta,
    est := (fitC1 be).est, mlb := none, mlbThreshold := 0,
    predictionDepth := "mlnp", stopping := .noCrit }

set_option maxHeartbeats 2000000 in
/-- C1: fitting the hierarchy root to {A, B}, A to {A1, A2} (nodes 0; 1, 2;
3, 4) on rows labelled A1, A2 and B with algorithm lcpn trains a classifier
at the root over classes [A, B] and at A over [A1, A2] and none at the
leaves A1, A2, B; predicting the A1-labelled row then walks the path
[root, A, A1], provided the fitted local classifiers rank the correct
branch highest on that row (the local learners are external collaborators;
their fitted score rows on the training example are the hypotheses). -/
theorem lcpn_example_fit_and_predict
    (be : ℕ → List Vec → List ℕ → Vec → List ℚ) (p q r s : ℚ)
    (h0 : be 0 [[1,0,0],[0,1,0],[0,0,1]] [1,1,2] [1,0,0] = [p, q]) (hq : q < p)
    (h1 : be 1 [[1,0,0],[0,1,0]] [3,4] [1,0,0] = [r, s]) (hs : s < r) :
    ((fitC1 be).clf 0).map Clf.cls = some [1, 2] ∧
    ((fitC1 be).clf 0).map Clf.isFitted = some true ∧
    ((fitC1 be).clf 1).map Clf.cls = some [3, 4] ∧
    ((fitC1 be).clf 1).map Clf.isFitted = some true ∧
    (fitC1 be).clf 2 = none ∧ (fitC1 be).clf 3 = none ∧ (fitC1 be).clf 4 = none ∧
    (recursive_predict ([1,0,0] : Vec) 10 (modelC1 be) 0).2 =
      some ([0, 1, 3], [p, q, r, s]) := by
  refine ⟨rfl, rfl, rfl, rfl, rfl, rfl, rfl, ?_⟩
  have w1 : (recursive_predict ([1,0,0] : Vec) 10 (modelC1 be) 0).2 =
      some (predict_walk (modelC1 be) [1,0,0] 9 [0] [0,0,0,0]
        ((modelC1 be).clf 0)).2 := rfl
  have stepA : predict_walk (modelC1 be) [1,0,0] 9 [0] [0,0,0,0]
      ((modelC1 be).clf 0) =
      predict_walk (modelC1 be) [1,0,0] 8 [0, 1] [p, q, 0, 0]
        ((modelC1 be).clf 1) := by
    rw [show (modelC1 be).clf 0 =
        some ⟨ClfKind.base 0, true, [1, 2],
          be 0 [[1,0,0],[0,1,0],[0,0,1]] [1,1,2]⟩ from rfl]
    rw [predict_walk_descend (modelC1 be) [1,0,0] 8 [0] [0,0,0,0]
      (ClfKind.base 0) true [1, 2] (be 0 [[1,0,0],[0,1,0],[0,0,1]] [1,1,2]) [p, q] 0
      ⟨[p, q, 0, 0], [], 1⟩ h0 (idxOfMax_pair hq) rfl rfl]
    rfl
  have stepB : predict_walk (modelC1 be) [1,0,0] 8 [0, 1] [p, q, 0, 0]
      ((modelC1 be).clf 1) =
      predict_walk (modelC1 be) [1,0,0] 7 [0, 1, 3] [p, q, r, s]
        ((modelC1 be).clf 3) := by
    rw [show (modelC1 be).clf 1 =
        some ⟨ClfKind.base 1, true, [3, 4],
          be 1 [[1,0,0],[0,1,0]] [3,4]⟩ from rfl]
    rw [predict_walk_descend (modelC1 be) [1,0,0] 7 [0, 1] [p, q, 0, 0]
      (ClfKind.base 1) true [3, 4] (be 1 [[1,0,0],[0,1,0]] [3,4]) [r, s] 0
      ⟨[p, q, r, s], [], 3⟩ h1 (idxOfMax_pair hs) rfl rfl]
    rfl
  have stepC : predict_walk (modelC1 be) [1,0,0] 7 [0, 1, 3] [p, q, r, s]
      ((modelC1 be).clf 3) = (modelC1 be, [0, 1, 3], [p, q, r, s]) := rfl
  rw [w1, stepA, stepB, stepC]

/-- Concrete base estimator for the C1 witness: every node's fitted
classifier puts score 1 on its first class and 0 on its second. -/
def beW : ℕ → List Vec → List ℕ → Vec → List ℚ := fun _ _ _ _ => [1, 0]

/-- C1 witness: the scenario instantiated with beW (which ranks the first
local class highest everywhere, as a perfectly fitted learner would on the
A1 training row). -/
theorem lcpn_example_fit_and_predict_witness :
    ((fitC1 beW).clf 0).map Clf.cls = some [1, 2] ∧
    ((fitC1 beW).clf 0).map Clf.isFitted = some true ∧
    ((fitC1 beW).clf 1).map Clf.cls = some [3, 4] ∧
    ((fitC1 beW).clf 1).map Clf.isFitted = some true ∧
    (fitC1 beW).clf 2 = none ∧ (fitC1 beW).clf 3 = none ∧ (fitC1 beW).clf 4 = none ∧
    (recursive_predict ([1,0,0] : Vec) 10 (modelC1 beW) 0).2 =
      some ([0, 1, 3], [1, 0, 1, 0]) :=
  lcpn_example_fit_and_predict beW 1 0 1 0 rfl (by decide) rfl (by decide)
